import Mathlib

/-!
Shallow embedding of the snake game engine (`src/games/snake.py`,
class `SnakeGame`) and proofs about it.

Modelling choices:
* wall-clock timestamps are rationals (`ℚ`); the Python floats `0.12`,
  `0.55`, `0.6`, `0.35` are modelled by the exact decimals `12/100`,
  `55/100`, `6/10`, `35/100` (all comparisons in the source compare a
  float against integer-valued quantities far from the representation
  error, so the rational model decides every comparison the same way);
* grid cells and pixel coordinates are integers (`ℤ × ℤ`), Python `//`
  is `Int.fdiv` (floor division);
* `random.choice(candidates)` is modelled by an explicit oracle: a
  natural number `pick`, reduced modulo the candidate count; `update`
  receives one oracle value per potential step (`picks : ℕ → ℕ`);
* `time.time()` becomes an explicit `now : ℚ` argument;
* drawing code is not modelled (it never writes game state).
-/

namespace Snake

/-- A grid cell or a pixel position, `(x, y)`. -/
abbrev Cell := ℤ × ℤ

/-- Construction parameters of `SnakeGame.__init__`: the pixel size of the
playfield.  All other numbers in `__init__` are hardcoded constants. -/
structure Config where
  game_w : ℤ
  game_h : ℤ

/-- `self.margin_x = 70`. -/
def margin_x : ℤ := 70

/-- `self.margin_top = 70`. -/
def margin_top : ℤ := 70

/-- `self.hand_space_bottom = 150`. -/
def hand_space_bottom : ℤ := 150

/-- `self.margin_bottom = 70 + self.hand_space_bottom`. -/
def margin_bottom : ℤ := 70 + hand_space_bottom

/-- `self.cell = 26` (pixels per grid cell). -/
def cell : ℤ := 26

/-- `self.food_cells = 3` (the food block is 3×3 cells). -/
def food_cells : ℕ := 3

/-- `self.move_interval = 0.12` (the logical tick interval). -/
def move_interval : ℚ := 12 / 100

/-- `usable_w = max(1, self.game_w - 2 * self.margin_x)`. -/
def usable_w (cfg : Config) : ℤ := max 1 (cfg.game_w - 2 * margin_x)

/-- `usable_h = max(1, self.game_h - self.margin_top - self.margin_bottom)`. -/
def usable_h (cfg : Config) : ℤ := max 1 (cfg.game_h - margin_top - margin_bottom)

/-- `self.grid_w = max(8, usable_w // self.cell)`. -/
def grid_w (cfg : Config) : ℤ := max 8 ((usable_w cfg).fdiv cell)

/-- `self.grid_h = max(8, usable_h // self.cell)`. -/
def grid_h (cfg : Config) : ℤ := max 8 ((usable_h cfg).fdiv cell)

/-- The mutable game state of a `SnakeGame` instance (the fields written by
`reset` and `update`; image/asset fields are omitted as they are never
read or written by the game logic). -/
structure SnakeState where
  score : ℕ
  gameOver : Bool
  eatFlashUntil : ℚ
  lastMove : ℚ
  dir : Cell
  pendingDir : Cell
  snake : List Cell
  grow : ℕ
  paused : Bool
  lastHandSeen : ℚ
  foodTl : Cell

/-- `SnakeGame._food_cells_list`: the `k × k` block of cells whose top-left
corner is `tl`, in the source's enumeration order (`i` outer, `j` inner). -/
def foodCellsList (tl : Cell) : List Cell :=
  (List.range food_cells).flatMap fun i =>
    (List.range food_cells).map fun j => (tl.1 + (i : ℤ), tl.2 + (j : ℤ))

/-- The candidate list built inside `SnakeGame._random_food_location`:
all top-left positions whose 3×3 block avoids the snake body, enumerated
with `x` outer and `y` inner exactly as the source's nested loops. -/
def candidatesList (cfg : Config) (snake : List Cell) : List Cell :=
  (List.range (grid_w cfg - (food_cells : ℤ) + 1).toNat).flatMap fun x =>
    (List.range (grid_h cfg - (food_cells : ℤ) + 1).toNat).filterMap fun y =>
      if ∀ c ∈ foodCellsList ((x : ℤ), (y : ℤ)), c ∉ snake
      then some ((x : ℤ), (y : ℤ)) else none

/-- `SnakeGame._random_food_location`, with the `random.choice` modelled by
the oracle `pick` (reduced modulo the number of candidates). -/
def randomFoodLocation (cfg : Config) (snake : List Cell) (pick : ℕ) : Cell :=
  if grid_w cfg < (food_cells : ℤ) ∨ grid_h cfg < (food_cells : ℤ) then
    (max 0 ((grid_w cfg).fdiv 2), max 0 ((grid_h cfg).fdiv 2))
  else
    let cands := candidatesList cfg snake
    if cands.isEmpty then
      (max 0 ((grid_w cfg - (food_cells : ℤ)).fdiv 2),
       max 0 ((grid_h cfg - (food_cells : ℤ)).fdiv 2))
    else
      cands.getD (pick % cands.length) (0, 0)

/-- `SnakeGame.reset` (with `time.time()` passed as `t0` and the food
placement oracle as `pick`). -/
def reset (cfg : Config) (t0 : ℚ) (pick : ℕ) : SnakeState :=
  let cx := (grid_w cfg).fdiv 2
  let cy := (grid_h cfg).fdiv 2
  let body : List Cell := [(cx, cy), (cx - 1, cy), (cx - 2, cy)]
  { score := 0
    gameOver := false
    eatFlashUntil := 0
    lastMove := t0
    dir := (1, 0)
    pendingDir := (1, 0)
    snake := body
    grow := 0
    paused := false
    lastHandSeen := t0
    foodTl := randomFoodLocation cfg body pick }

/-- `SnakeGame._board_origin`.  Note the source recomputes the usable area
here *without* the `max(1, ·)` clamp used in `__init__`. -/
def boardOrigin (cfg : Config) : Cell :=
  let uw := cfg.game_w - 2 * margin_x
  let uh := cfg.game_h - margin_top - margin_bottom
  let bw := grid_w cfg * cell
  let bh := grid_h cfg * cell
  (margin_x + max 0 ((uw - bw).fdiv 2), margin_top + max 0 ((uh - bh).fdiv 2))

/-- `SnakeGame._head_pixel_center`: `cell * 0.5 = 13.0` exactly, so the
`int(…)` conversions yield `ox + gx*26 + 13` and likewise for `y`. -/
def headPixelCenter (cfg : Config) (s : SnakeState) : Cell :=
  let g := s.snake.headD (0, 0)
  let o := boardOrigin cfg
  (o.1 + g.1 * cell + 13, o.2 + g.2 * cell + 13)

/-- The deadzone `dead = self.cell * 0.55` of
`SnakeGame._update_direction_from_finger` (`26 * 0.55 = 14.3`). -/
def deadzone : ℚ := (cell : ℚ) * (55 / 100)

/-- The source's comparison `abs(d) < dead` for an integer pixel delta `d`:
`|d| < cell * 0.55` rendered exactly over the integers as
`100 * |d| < 55 * cell` (the two are equivalent, see `inDead_iff`). -/
def inDead (d : ℤ) : Prop := 100 * |d| < 55 * cell

instance (d : ℤ) : Decidable (inDead d) := by unfold inDead; infer_instance

/-- The integer rendering of the deadzone test agrees with the rational
comparison `|d| < deadzone`. -/
theorem inDead_iff (d : ℤ) : inDead d ↔ |(d : ℚ)| < deadzone := by
  unfold inDead deadzone cell
  rw [← Int.cast_abs, show (((26 : ℤ) : ℚ) * (55 / 100)) = 143 / 10 by norm_num,
      lt_div_iff₀ (by norm_num : (0 : ℚ) < 10)]
  constructor <;> intro h
  · exact_mod_cast (by omega : |d| * 10 < 143)
  · have h' : |d| * 10 < 143 := by exact_mod_cast h
    omega

/-- The candidate direction computed by
`SnakeGame._update_direction_from_finger` once at least one axis is at or
beyond the deadzone (the body of the function after its early return). -/
def dirCandidate (dxp dyp : ℤ) : Cell :=
  let sx : ℤ := if inDead dxp then 0 else if 0 < dxp then 1 else -1
  let sy : ℤ := if inDead dyp then 0 else if 0 < dyp then 1 else -1
  if sx ≠ 0 ∧ sy ≠ 0 then (sx, sy)
  else if |dyp| ≤ |dxp| then (if 0 < dxp then (1, 0) else (-1, 0))
  else (if 0 < dyp then (0, 1) else (0, -1))

/-- `SnakeGame._update_direction_from_finger`, as a pure function returning
the new value of `self._pending_dir` (the method's only write). -/
def updateDirectionFromFinger (head finger : Cell) (dir pending : Cell) : Cell :=
  let dxp := finger.1 - head.1
  let dyp := finger.2 - head.2
  if inDead dxp ∧ inDead dyp then pending
  else
    let cand := dirCandidate dxp dyp
    if cand.1 = -dir.1 ∧ cand.2 = -dir.2 then pending else cand

/-- One iteration of the movement loop in `SnakeGame.update`
(lines 327-349 of the source): adopt the pending direction, compute the
new head, detect collision, insert the head, handle food and tail. -/
def stepOnce (cfg : Config) (now : ℚ) (s : SnakeState) (pick : ℕ) : SnakeState :=
  let d := s.pendingDir
  let h := s.snake.headD (0, 0)
  let nh : Cell := (h.1 + d.1, h.2 + d.2)
  if nh.1 < 0 ∨ nh.2 < 0 ∨ grid_w cfg ≤ nh.1 ∨ grid_h cfg ≤ nh.2 ∨ nh ∈ s.snake then
    { s with dir := d, gameOver := true }
  else
    let snake1 := nh :: s.snake
    let ate := nh ∈ foodCellsList s.foodTl
    let score1 := if ate then s.score + 1 else s.score
    let grow1 := if ate then s.grow + 2 else s.grow
    let flash1 := if ate then now + 35 / 100 else s.eatFlashUntil
    let food1 := if ate then randomFoodLocation cfg snake1 pick else s.foodTl
    if 0 < grow1 then
      { s with dir := d, snake := snake1, score := score1, grow := grow1 - 1,
               eatFlashUntil := flash1, foodTl := food1 }
    else
      { s with dir := d, snake := snake1.dropLast, score := score1, grow := grow1,
               eatFlashUntil := flash1, foodTl := food1 }

/-- The movement loop of `SnakeGame.update`: run up to `n` steps, stopping
as soon as a step has set `gameOver` (the source's `break`).  Returns the
final state together with the number of steps actually executed; step
number `i` consumes oracle value `picks i`. -/
def runSteps (cfg : Config) (now : ℚ) (picks : ℕ → ℕ) :
    ℕ → ℕ → SnakeState → SnakeState × ℕ
  | 0, _, s => (s, 0)
  | n + 1, i, s =>
    if s.gameOver then (s, 0)
    else
      let r := runSteps cfg now picks n (i + 1) (stepOnce cfg now s (picks i))
      (r.1, r.2 + 1)

/-- The pointer-handling phase of `SnakeGame.update` (lines 315-321 of the
source): a present pointer refreshes `lastHandSeen`, clears the pause and
feeds the direction resolver; an absent pointer pauses the game once the
0.6 s hysteresis window is exceeded. -/
def pointerPhase (cfg : Config) (s : SnakeState) (now : ℚ)
    (ptr : Option Cell) : SnakeState :=
  match ptr with
  | some p =>
    { s with lastHandSeen := now, paused := false,
             pendingDir := updateDirectionFromFinger (headPixelCenter cfg s) p
                             s.dir s.pendingDir }
  | none =>
    if 6 / 10 < now - s.lastHandSeen then { s with paused := true } else s

/-- `SnakeGame.update` (the state transition; drawing is omitted).  Returns
the new state, the number of steps executed, and the clamped step budget
`steps = min(int((now − last) / interval), 3)` (0 when the movement block
does not run). -/
def updateFull (cfg : Config) (s : SnakeState) (now : ℚ)
    (ptr : Option Cell) (picks : ℕ → ℕ) : SnakeState × ℕ × ℕ :=
  if s.gameOver then (s, 0, 0)
  else
    let s1 := pointerPhase cfg s now ptr
    if s1.paused = false ∧ move_interval ≤ now - s1.lastMove then
      let steps := min (⌊(now - s1.lastMove) / move_interval⌋.toNat) 3
      let r := runSteps cfg now picks steps 0 s1
      ({ r.1 with lastMove := now }, r.2, steps)
    else
      (s1, 0, 0)

/-- The state returned by `SnakeGame.update`. -/
def update (cfg : Config) (s : SnakeState) (now : ℚ)
    (ptr : Option Cell) (picks : ℕ → ℕ) : SnakeState :=
  (updateFull cfg s now ptr picks).1

/-- The number of movement steps a call to `SnakeGame.update` executed. -/
def updateStepCount (cfg : Config) (s : SnakeState) (now : ℚ)
    (ptr : Option Cell) (picks : ℕ → ℕ) : ℕ :=
  (updateFull cfg s now ptr picks).2.1

/-- The clamped step budget `steps` computed by `SnakeGame.update` (0 when
the movement block does not run). -/
def updateStepBudget (cfg : Config) (s : SnakeState) (now : ℚ)
    (ptr : Option Cell) (picks : ℕ → ℕ) : ℕ :=
  (updateFull cfg s now ptr picks).2.2

/-- States reachable from `reset()` by any sequence of `update` calls. -/
inductive Reachable (cfg : Config) : SnakeState → Prop where
  | init (t0 : ℚ) (pick : ℕ) : Reachable cfg (reset cfg t0 pick)
  | step {s : SnakeState} (now : ℚ) (ptr : Option Cell) (picks : ℕ → ℕ) :
      Reachable cfg s → Reachable cfg (update cfg s now ptr picks)

end Snake

namespace Snake

/-! ### Basic lemmas about `stepOnce` and `runSteps` -/

/-- A movement step never touches the pause flag. -/
theorem stepOnce_paused (cfg : Config) (now : ℚ) (s : SnakeState) (pick : ℕ) :
    (stepOnce cfg now s pick).paused = s.paused := by
  simp only [stepOnce]
  split
  · rfl
  · split
    · split <;> rfl
    · split <;> rfl

/-- A movement step never touches `lastHandSeen`. -/
theorem stepOnce_lastHandSeen (cfg : Config) (now : ℚ) (s : SnakeState) (pick : ℕ) :
    (stepOnce cfg now s pick).lastHandSeen = s.lastHandSeen := by
  simp only [stepOnce]
  split
  · rfl
  · split
    · split <;> rfl
    · split <;> rfl

/-- A movement step preserves distinctness of the body cells. -/
theorem stepOnce_nodup (cfg : Config) (now : ℚ) (s : SnakeState) (pick : ℕ)
    (h : s.snake.Nodup) : (stepOnce cfg now s pick).snake.Nodup := by
  simp only [stepOnce]
  split
  · exact h
  · next hcol =>
    push_neg at hcol
    have hnotmem := hcol.2.2.2.2
    have hcons : ((s.snake.headD (0, 0)).1 + s.pendingDir.1,
        (s.snake.headD (0, 0)).2 + s.pendingDir.2) :: s.snake |>.Nodup :=
      List.nodup_cons.mpr ⟨hnotmem, h⟩
    split
    · split
      · exact hcons
      · exact (List.dropLast_sublist _).nodup hcons
    · split
      · exact hcons
      · exact (List.dropLast_sublist _).nodup hcons

/-- The movement loop never touches the pause flag. -/
theorem runSteps_paused (cfg : Config) (now : ℚ) (picks : ℕ → ℕ) :
    ∀ (n i : ℕ) (s : SnakeState),
      ((runSteps cfg now picks n i s).1).paused = s.paused := by
  intro n
  induction n with
  | zero => intro i s; rfl
  | succ n ih =>
    intro i s
    unfold runSteps
    split
    · rfl
    · dsimp only
      rw [ih, stepOnce_paused]

/-- The movement loop preserves distinctness of the body cells. -/
theorem runSteps_nodup (cfg : Config) (now : ℚ) (picks : ℕ → ℕ) :
    ∀ (n i : ℕ) (s : SnakeState), s.snake.Nodup →
      ((runSteps cfg now picks n i s).1).snake.Nodup := by
  intro n
  induction n with
  | zero => intro i s h; exact h
  | succ n ih =>
    intro i s h
    unfold runSteps
    split
    · exact h
    · exact ih (i + 1) _ (stepOnce_nodup cfg now s (picks i) h)

/-- The movement loop executes at most its budget. -/
theorem runSteps_count_le (cfg : Config) (now : ℚ) (picks : ℕ → ℕ) :
    ∀ (n i : ℕ) (s : SnakeState), (runSteps cfg now picks n i s).2 ≤ n := by
  intro n
  induction n with
  | zero => intro i s; exact Nat.le_refl 0
  | succ n ih =>
    intro i s
    unfold runSteps
    split
    · exact Nat.zero_le _
    · exact Nat.succ_le_succ (ih (i + 1) _)

/-- If the movement loop executed fewer steps than its budget, it stopped
because a step collided. -/
theorem runSteps_count_lt (cfg : Config) (now : ℚ) (picks : ℕ → ℕ) :
    ∀ (n i : ℕ) (s : SnakeState), (runSteps cfg now picks n i s).2 < n →
      ((runSteps cfg now picks n i s).1).gameOver = true := by
  intro n
  induction n with
  | zero => intro i s h; exact absurd h (Nat.not_lt_zero _)
  | succ n ih =>
    intro i s h
    by_cases hover : s.gameOver = true
    · simp [runSteps, hover]
    · simp only [runSteps, hover, if_false] at h ⊢
      exact ih (i + 1) _ (Nat.lt_of_succ_lt_succ h)

/-! ### Shared concrete instances used by witnesses and counterexamples -/

/-- A playfield whose usable area is below one cell, so both grid
dimensions are clamped to the minimum of 8. -/
def demoConfig : Config := ⟨0, 0⟩

/-- An alive mid-game state on the 8×8 demo grid: a 3-cell snake heading
right, food block at top-left corner `(5, 4)` (directly ahead of the head). -/
def demoState : SnakeState :=
  { score := 0, gameOver := false, eatFlashUntil := 0, lastMove := 0,
    dir := (1, 0), pendingDir := (1, 0), snake := [(4, 4), (3, 4), (2, 4)],
    grow := 0, paused := false, lastHandSeen := 0, foodTl := (5, 4) }

/-- A state whose snake forms a hook so that the cell ahead of the head is
exactly the tail cell `(6, 5)`. -/
def demoTailState : SnakeState :=
  { demoState with snake := [(5, 5), (5, 6), (6, 6), (6, 5)], foodTl := (0, 0) }

/-! ### C8: terminal state is frozen -/

/-- C8: once `is_over` is true, `update` performs no state mutation at all —
every subsequent call returns the state unchanged (body, score, food,
directions, timestamps), until an explicit `reset`. -/
theorem C8_terminal_freeze (cfg : Config) (s : SnakeState) (now : ℚ)
    (ptr : Option Cell) (picks : ℕ → ℕ) (h : s.gameOver = true) :
    update cfg s now ptr picks = s := by
  unfold update updateFull
  rw [h]
  rfl

/-- Witness for C8 at a concrete terminal state. -/
theorem C8_witness :
    update demoConfig { demoState with gameOver := true } 5 none (fun _ => 0)
      = { demoState with gameOver := true } :=
  C8_terminal_freeze demoConfig { demoState with gameOver := true } 5 none
    (fun _ => 0) rfl

/-! ### C9: moving into the current tail cell is fatal -/

/-- The last element of a nonempty list is a member of it. -/
theorem getLastD_mem_of_ne_nil {α : Type} :
    ∀ (l : List α) (d : α), l ≠ [] → l.getLastD d ∈ l := by
  intro l
  induction l with
  | nil => intro d h; exact absurd rfl h
  | cons a t ih =>
    intro d _
    rw [List.getLastD_cons]
    cases t with
    | nil => exact List.mem_singleton.mpr rfl
    | cons b u => exact List.mem_cons_of_mem a (ih a (by simp))

/-- C9: a step whose new head equals the current tail cell is a fatal
collision even with `grow_credits = 0`: the membership test runs against
the whole body before the head is inserted or the tail removed, so the
step sets `is_over` and leaves the body (and score) unchanged. -/
theorem C9_tail_collision (cfg : Config) (now : ℚ) (s : SnakeState) (pick : ℕ)
    (hne : s.snake ≠ []) (_hgrow : s.grow = 0)
    (htail : ((s.snake.headD (0, 0)).1 + s.pendingDir.1,
              (s.snake.headD (0, 0)).2 + s.pendingDir.2)
             = s.snake.getLastD (0, 0)) :
    (stepOnce cfg now s pick).gameOver = true ∧
    (stepOnce cfg now s pick).snake = s.snake ∧
    (stepOnce cfg now s pick).score = s.score := by
  have hmem : ((s.snake.headD (0, 0)).1 + s.pendingDir.1,
      (s.snake.headD (0, 0)).2 + s.pendingDir.2) ∈ s.snake :=
    htail ▸ getLastD_mem_of_ne_nil s.snake (0, 0) hne
  unfold stepOnce
  rw [if_pos (Or.inr (Or.inr (Or.inr (Or.inr hmem))))]
  exact ⟨rfl, rfl, rfl⟩

/-- Witness for C9: on the hooked demo snake, stepping right from `(5, 5)`
lands on the tail `(6, 5)` and is fatal with the body unchanged. -/
theorem C9_witness :
    (stepOnce demoConfig 0 demoTailState 0).gameOver = true ∧
    (stepOnce demoConfig 0 demoTailState 0).snake = demoTailState.snake ∧
    (stepOnce demoConfig 0 demoTailState 0).score = demoTailState.score :=
  C9_tail_collision demoConfig 0 demoTailState 0 (by decide) rfl (by decide)

end Snake

namespace Snake

/-! ### Lemmas about `pointerPhase` -/

/-- The pointer phase never touches the body. -/
theorem pointerPhase_snake (cfg : Config) (s : SnakeState) (now : ℚ)
    (ptr : Option Cell) : (pointerPhase cfg s now ptr).snake = s.snake := by
  cases ptr with
  | some p => rfl
  | none =>
    simp only [pointerPhase]
    split <;> rfl

/-- The pointer phase never touches `lastMove`. -/
theorem pointerPhase_lastMove (cfg : Config) (s : SnakeState) (now : ℚ)
    (ptr : Option Cell) : (pointerPhase cfg s now ptr).lastMove = s.lastMove := by
  cases ptr with
  | some p => rfl
  | none =>
    simp only [pointerPhase]
    split <;> rfl

/-- The pointer phase never touches `gameOver`. -/
theorem pointerPhase_gameOver (cfg : Config) (s : SnakeState) (now : ℚ)
    (ptr : Option Cell) : (pointerPhase cfg s now ptr).gameOver = s.gameOver := by
  cases ptr with
  | some p => rfl
  | none =>
    simp only [pointerPhase]
    split <;> rfl

/-! ### C3: no self-overlap invariant -/

/-- `update` preserves distinctness of the body cells. -/
theorem update_nodup (cfg : Config) (s : SnakeState) (now : ℚ)
    (ptr : Option Cell) (picks : ℕ → ℕ) (h : s.snake.Nodup) :
    (update cfg s now ptr picks).snake.Nodup := by
  unfold update updateFull
  split
  · exact h
  · dsimp only
    split
    · exact runSteps_nodup cfg now picks _ 0 _
        (by rw [pointerPhase_snake]; exact h)
    · rw [pointerPhase_snake]
      exact h

/-- The freshly reset snake has three distinct cells. -/
theorem reset_nodup (cfg : Config) (t0 : ℚ) (pick : ℕ) :
    (reset cfg t0 pick).snake.Nodup := by
  simp only [reset]
  refine List.nodup_cons.mpr ⟨?_, List.nodup_cons.mpr ⟨?_, List.nodup_singleton _⟩⟩
  · intro hmem
    simp only [List.mem_cons, List.mem_singleton, List.not_mem_nil, or_false,
      Prod.mk.injEq] at hmem
    rcases hmem with ⟨h, -⟩ | ⟨h, -⟩ <;> omega
  · intro hmem
    simp only [List.mem_singleton, Prod.mk.injEq] at hmem
    obtain ⟨h, -⟩ := hmem
    omega

/-- Every reachable state has pairwise-distinct body cells. -/
theorem reachable_nodup (cfg : Config) (s : SnakeState)
    (h : Reachable cfg s) : s.snake.Nodup := by
  induction h with
  | init t0 pick => exact reset_nodup cfg t0 pick
  | step now ptr picks _ ih => exact update_nodup _ _ _ _ _ ih

/-- C3: in every state reachable from `reset()` by any sequence of `update`
calls, while `is_over` is false the body cells are pairwise distinct
(`len(body) == len(set(body))`). -/
theorem C3_no_self_overlap (cfg : Config) (s : SnakeState)
    (h : Reachable cfg s) (_hover : s.gameOver = false) : s.snake.Nodup :=
  reachable_nodup cfg s h

/-- Witness for C3 at the freshly reset demo game. -/
theorem C3_witness : (reset demoConfig 0 0).snake.Nodup :=
  C3_no_self_overlap demoConfig (reset demoConfig 0 0)
    (Reachable.init 0 0) (by decide)

end Snake

namespace Snake

/-! ### C5: the direction resolver -/

/-- A delta inside the deadzone in particular means the test `inDead 0`
holds, so a delta outside it is nonzero. -/
theorem ne_zero_of_not_inDead {d : ℤ} (h : ¬ inDead d) : d ≠ 0 := by
  intro hd
  subst hd
  exact h (by decide)

/-- The per-axis classification of the resolver written with `Int.sign`. -/
theorem axis_class_eq_sign {d : ℤ} (h : ¬ inDead d) :
    (if inDead d then (0 : ℤ) else if 0 < d then 1 else -1) = d.sign := by
  rw [if_neg h]
  rcases lt_trichotomy d 0 with hlt | heq | hgt
  · rw [if_neg (by omega), Int.sign_eq_neg_one_of_neg hlt]
  · exact absurd heq (ne_zero_of_not_inDead h)
  · rw [if_pos hgt, Int.sign_eq_one_of_pos hgt]

/-- When both axes are at or beyond the deadzone the candidate is the
diagonal of the two signs. -/
theorem dirCandidate_both {dxp dyp : ℤ} (h1 : ¬ inDead dxp) (h2 : ¬ inDead dyp) :
    dirCandidate dxp dyp = (dxp.sign, dyp.sign) := by
  simp only [dirCandidate]
  rw [axis_class_eq_sign h1, axis_class_eq_sign h2,
    if_pos ⟨by simpa [Int.sign_eq_zero_iff_zero] using ne_zero_of_not_inDead h1,
            by simpa [Int.sign_eq_zero_iff_zero] using ne_zero_of_not_inDead h2⟩]

/-- When only the x axis is at or beyond the deadzone the candidate is the
horizontal cardinal direction. -/
theorem dirCandidate_xonly {dxp dyp : ℤ} (h1 : ¬ inDead dxp) (h2 : inDead dyp) :
    dirCandidate dxp dyp = (dxp.sign, 0) := by
  simp only [dirCandidate]
  rw [axis_class_eq_sign h1, if_pos h2]
  rw [if_neg (by simp), if_pos (by unfold inDead at h1 h2; omega)]
  rcases lt_trichotomy dxp 0 with hlt | heq | hgt
  · rw [if_neg (by omega), Int.sign_eq_neg_one_of_neg hlt]
  · exact absurd heq (ne_zero_of_not_inDead h1)
  · rw [if_pos hgt, Int.sign_eq_one_of_pos hgt]

/-- When only the y axis is at or beyond the deadzone the candidate is the
vertical cardinal direction. -/
theorem dirCandidate_yonly {dxp dyp : ℤ} (h1 : inDead dxp) (h2 : ¬ inDead dyp) :
    dirCandidate dxp dyp = (0, dyp.sign) := by
  simp only [dirCandidate]
  rw [if_pos h1, axis_class_eq_sign h2]
  rw [if_neg (by simp), if_neg (by unfold inDead at h1 h2; omega)]
  rcases lt_trichotomy dyp 0 with hlt | heq | hgt
  · rw [if_neg (by omega), Int.sign_eq_neg_one_of_neg hlt]
  · exact absurd heq (ne_zero_of_not_inDead h2)
  · rw [if_pos hgt, Int.sign_eq_one_of_pos hgt]

/-- C5: with `dx, dy` the pointer-minus-head deltas, the direction resolver
leaves the pending direction untouched when both axes are inside the
deadzone; produces the diagonal `(sign dx, sign dy)` when both are at or
beyond it; produces the corresponding cardinal direction when exactly one
is; and in each case a candidate equal to the exact negation of the
current direction is rejected, leaving the pending direction unchanged. -/
theorem C5_direction_resolver (head finger dir pending : Cell) :
    (inDead (finger.1 - head.1) ∧ inDead (finger.2 - head.2) →
      updateDirectionFromFinger head finger dir pending = pending) ∧
    (¬ inDead (finger.1 - head.1) ∧ ¬ inDead (finger.2 - head.2) →
      (((finger.1 - head.1).sign, (finger.2 - head.2).sign) = (-dir.1, -dir.2) →
        updateDirectionFromFinger head finger dir pending = pending) ∧
      (((finger.1 - head.1).sign, (finger.2 - head.2).sign) ≠ (-dir.1, -dir.2) →
        updateDirectionFromFinger head finger dir pending
          = ((finger.1 - head.1).sign, (finger.2 - head.2).sign))) ∧
    (¬ inDead (finger.1 - head.1) ∧ inDead (finger.2 - head.2) →
      (((finger.1 - head.1).sign, (0 : ℤ)) = (-dir.1, -dir.2) →
        updateDirectionFromFinger head finger dir pending = pending) ∧
      (((finger.1 - head.1).sign, (0 : ℤ)) ≠ (-dir.1, -dir.2) →
        updateDirectionFromFinger head finger dir pending
          = ((finger.1 - head.1).sign, 0))) ∧
    (inDead (finger.1 - head.1) ∧ ¬ inDead (finger.2 - head.2) →
      (((0 : ℤ), (finger.2 - head.2).sign) = (-dir.1, -dir.2) →
        updateDirectionFromFinger head finger dir pending = pending) ∧
      (((0 : ℤ), (finger.2 - head.2).sign) ≠ (-dir.1, -dir.2) →
        updateDirectionFromFinger head finger dir pending
          = (0, (finger.2 - head.2).sign))) := by
  refine ⟨?_, ?_, ?_, ?_⟩
  · intro h
    simp only [updateDirectionFromFinger]
    rw [if_pos h]
  · rintro ⟨h1, h2⟩
    simp only [updateDirectionFromFinger]
    rw [if_neg (by tauto), dirCandidate_both h1 h2]
    constructor
    · intro heq
      rw [if_pos (by rw [Prod.mk.injEq] at heq; exact heq)]
    · intro hne
      rw [if_neg fun hc => hne (Prod.ext_iff.mpr hc)]
  · rintro ⟨h1, h2⟩
    simp only [updateDirectionFromFinger]
    rw [if_neg (by tauto), dirCandidate_xonly h1 h2]
    constructor
    · intro heq
      rw [if_pos (by rw [Prod.mk.injEq] at heq; exact heq)]
    · intro hne
      rw [if_neg fun hc => hne (Prod.ext_iff.mpr hc)]
  · rintro ⟨h1, h2⟩
    simp only [updateDirectionFromFinger]
    rw [if_neg (by tauto), dirCandidate_yonly h1 h2]
    constructor
    · intro heq
      rw [if_pos (by rw [Prod.mk.injEq] at heq; exact heq)]
    · intro hne
      rw [if_neg fun hc => hne (Prod.ext_iff.mpr hc)]

/-- Witness for C5: a pointer 50 px above the head while heading right
yields the cardinal direction `(0, -1)`. -/
theorem C5_witness :
    updateDirectionFromFinger (100, 100) (100, 50) (1, 0) (1, 0) = (0, -1) := by
  have h := (C5_direction_resolver (100, 100) (100, 50) (1, 0) (1, 0)).2.2.2
  have h2 := (h (by decide)).2 (by decide)
  simpa using h2

end Snake

namespace Snake

/-! ### C6: food placement -/

/-- A top-left position is a valid food placement when its
`food_cells × food_cells` block lies fully inside the grid and shares no
cell with the snake body. -/
def validPlacement (cfg : Config) (snake : List Cell) (tl : Cell) : Prop :=
  0 ≤ tl.1 ∧ tl.1 + (food_cells : ℤ) ≤ grid_w cfg ∧
  0 ≤ tl.2 ∧ tl.2 + (food_cells : ℤ) ≤ grid_h cfg ∧
  ∀ c ∈ foodCellsList tl, c ∉ snake

instance (cfg : Config) (snake : List Cell) (tl : Cell) :
    Decidable (validPlacement cfg snake tl) := by
  unfold validPlacement; infer_instance

/-- The grid is always at least 8 cells wide. -/
theorem eight_le_grid_w (cfg : Config) : 8 ≤ grid_w cfg := le_max_left _ _

/-- The grid is always at least 8 cells tall. -/
theorem eight_le_grid_h (cfg : Config) : 8 ≤ grid_h cfg := le_max_left _ _

/-- The candidate enumeration contains exactly the valid placements. -/
theorem mem_candidatesList (cfg : Config) (snake : List Cell) (tl : Cell) :
    tl ∈ candidatesList cfg snake ↔ validPlacement cfg snake tl := by
  have hw := eight_le_grid_w cfg
  have hh := eight_le_grid_h cfg
  unfold candidatesList validPlacement
  simp only [List.mem_flatMap, List.mem_filterMap, List.mem_range]
  constructor
  · rintro ⟨x, hx, y, hy, hcond⟩
    obtain ⟨b, hb, rfl⟩ :
        ∃ b, b < (grid_h cfg - (food_cells : ℤ) + 1).toNat ∧ y = (b : ℤ) := by
      simpa [eq_comm] using hy
    split_ifs at hcond with hall
    obtain rfl : ((x : ℤ), (b : ℤ)) = tl := Option.some.inj hcond
    refine ⟨Int.ofNat_nonneg x, by omega, Int.ofNat_nonneg b, by omega, hall⟩
  · rintro ⟨hx0, hxw, hy0, hyh, hall⟩
    refine ⟨tl.1.toNat, by omega, tl.2, ?_, ?_⟩
    · simp only [List.pure_def, List.bind_eq_flatMap, List.mem_flatMap,
        List.mem_range, List.mem_singleton]
      exact ⟨tl.2.toNat, by omega, (Int.toNat_of_nonneg hy0).symm⟩
    · have hpair : (((tl.1.toNat : ℕ) : ℤ), tl.2) = tl := by
        rw [Int.toNat_of_nonneg hx0]
      rw [hpair, if_pos hall]

/-- C6: on any board (both grid dimensions are always ≥ 8), the food
placement routine returns a valid placement — block fully inside the grid
and disjoint from the body — whenever at least one valid placement exists,
and returns the grid's geometric center block when none exists; it is a
total function, never an error. -/
theorem C6_food_placement (cfg : Config) (snake : List Cell) (pick : ℕ)
    (hcfg : 8 ≤ grid_w cfg ∧ 8 ≤ grid_h cfg) :
    ((∃ tl, validPlacement cfg snake tl) →
      validPlacement cfg snake (randomFoodLocation cfg snake pick)) ∧
    ((¬ ∃ tl, validPlacement cfg snake tl) →
      randomFoodLocation cfg snake pick =
        (max 0 ((grid_w cfg - (food_cells : ℤ)).fdiv 2),
         max 0 ((grid_h cfg - (food_cells : ℤ)).fdiv 2))) := by
  obtain ⟨hw, hh⟩ := hcfg
  have hfc : (food_cells : ℤ) = 3 := rfl
  unfold randomFoodLocation
  rw [if_neg (by push_neg; omega)]
  constructor
  · rintro ⟨w, hwvalid⟩
    have hmem : w ∈ candidatesList cfg snake :=
      (mem_candidatesList cfg snake w).mpr hwvalid
    have hne : candidatesList cfg snake ≠ [] := by
      intro hnil
      rw [hnil] at hmem
      exact absurd hmem (List.not_mem_nil w)
    have hlen : 0 < (candidatesList cfg snake).length :=
      List.length_pos.mpr hne
    rw [if_neg (by simp [List.isEmpty_iff, hne])]
    have hidx : pick % (candidatesList cfg snake).length
        < (candidatesList cfg snake).length := Nat.mod_lt _ hlen
    have hget : (candidatesList cfg snake).getD
        (pick % (candidatesList cfg snake).length) (0, 0)
        ∈ candidatesList cfg snake := by
      rw [List.getD_eq_getElem _ _ hidx]
      exact List.getElem_mem hidx
    exact (mem_candidatesList cfg snake _).mp hget
  · intro hno
    have hnil : candidatesList cfg snake = [] := by
      rcases hcand : candidatesList cfg snake with _ | ⟨a, l⟩
      · rfl
      · exact absurd ⟨a, (mem_candidatesList cfg snake a).mp
          (hcand ▸ List.mem_cons_self a l)⟩ hno
    rw [if_pos (by simp [List.isEmpty_iff, hnil])]

/-- Witness for C6: on the demo board with the demo snake, a valid
placement exists, so the routine returns a valid placement. -/
theorem C6_witness :
    validPlacement demoConfig demoState.snake
      (randomFoodLocation demoConfig demoState.snake 0) :=
  (C6_food_placement demoConfig demoState.snake 0 (by decide)).1
    ⟨(0, 0), by decide⟩

end Snake

namespace Snake

/-! ### Branch lemmas for `updateFull` -/

/-- When the game is live and the movement condition holds after the
pointer phase, `updateFull` runs the clamped number of steps and stamps
`lastMove := now`. -/
theorem updateFull_run (cfg : Config) (s : SnakeState) (now : ℚ)
    (ptr : Option Cell) (picks : ℕ → ℕ) (h : s.gameOver = false)
    (hp : (pointerPhase cfg s now ptr).paused = false)
    (hm : move_interval ≤ now - (pointerPhase cfg s now ptr).lastMove) :
    updateFull cfg s now ptr picks =
      ({ (runSteps cfg now picks
            (min (⌊(now - (pointerPhase cfg s now ptr).lastMove) /
              move_interval⌋.toNat) 3) 0 (pointerPhase cfg s now ptr)).1
          with lastMove := now },
       (runSteps cfg now picks
            (min (⌊(now - (pointerPhase cfg s now ptr).lastMove) /
              move_interval⌋.toNat) 3) 0 (pointerPhase cfg s now ptr)).2,
       min (⌊(now - (pointerPhase cfg s now ptr).lastMove) /
              move_interval⌋.toNat) 3) := by
  unfold updateFull
  rw [if_neg (by simp [h]), if_pos ⟨hp, hm⟩]

/-- When the game is live but the movement condition fails (paused, or not
yet a full tick since `lastMove`), `updateFull` only runs the pointer
phase. -/
theorem updateFull_skip (cfg : Config) (s : SnakeState) (now : ℚ)
    (ptr : Option Cell) (picks : ℕ → ℕ) (h : s.gameOver = false)
    (hc : ¬((pointerPhase cfg s now ptr).paused = false ∧
            move_interval ≤ now - (pointerPhase cfg s now ptr).lastMove)) :
    updateFull cfg s now ptr picks = (pointerPhase cfg s now ptr, 0, 0) := by
  unfold updateFull
  rw [if_neg (by simp [h]), if_neg hc]

/-- While the game is live, the pause flag after `update` is exactly the
pause flag computed by the pointer phase. -/
theorem update_paused_eq (cfg : Config) (s : SnakeState) (now : ℚ)
    (ptr : Option Cell) (picks : ℕ → ℕ) (h : s.gameOver = false) :
    (update cfg s now ptr picks).paused = (pointerPhase cfg s now ptr).paused := by
  unfold update
  by_cases hc : (pointerPhase cfg s now ptr).paused = false ∧
      move_interval ≤ now - (pointerPhase cfg s now ptr).lastMove
  · rw [updateFull_run cfg s now ptr picks h hc.1 hc.2]
    exact runSteps_paused cfg now picks _ 0 _
  · rw [updateFull_skip cfg s now ptr picks h hc]

/-! ### C7: pause hysteresis -/

/-- C7: the pause hysteresis.  While the game is live: an absent pointer
within the 0.6 s window leaves `is_paused` untouched (so a pointer absent
only 0.59 s never pauses); an absent pointer beyond the window pauses on
that very update; and any update with a present pointer unpauses. -/
theorem C7_pause_hysteresis (cfg : Config) (s : SnakeState) (now : ℚ)
    (ptr : Option Cell) (picks : ℕ → ℕ) (h : s.gameOver = false) :
    (ptr = none → now - s.lastHandSeen ≤ 6 / 10 →
      (update cfg s now ptr picks).paused = s.paused) ∧
    (ptr = none → 6 / 10 < now - s.lastHandSeen →
      (update cfg s now ptr picks).paused = true) ∧
    (∀ p, ptr = some p → (update cfg s now ptr picks).paused = false) := by
  refine ⟨?_, ?_, ?_⟩
  · rintro rfl hle
    rw [update_paused_eq cfg s now none picks h]
    simp only [pointerPhase]
    rw [if_neg (not_lt.mpr hle)]
  · rintro rfl hgt
    rw [update_paused_eq cfg s now none picks h]
    simp only [pointerPhase]
    rw [if_pos hgt]
  · rintro p rfl
    rw [update_paused_eq cfg s now (some p) picks h]
    rfl

/-- Witness for C7: an update with a present pointer leaves the demo game
unpaused. -/
theorem C7_witness :
    (update demoConfig demoState 1 (some (187, 187)) (fun _ => 0)).paused
      = false :=
  (C7_pause_hysteresis demoConfig demoState 1 (some (187, 187)) (fun _ => 0)
    rfl).2.2 (187, 187) rfl

/-! ### C2: the last-tick timestamp -/

/-- C2 (amended): whenever an `update` call executes at least one step, the
last-tick timestamp is *set to `now`* — the fractional remainder of the
elapsed time is discarded, not preserved. -/
theorem C2_amended (cfg : Config) (s : SnakeState) (now : ℚ)
    (ptr : Option Cell) (picks : ℕ → ℕ)
    (h : 1 ≤ updateStepCount cfg s now ptr picks) :
    (update cfg s now ptr picks).lastMove = now := by
  by_cases hover : s.gameOver = true
  · exact absurd (by unfold updateStepCount updateFull at h; rw [if_pos hover] at h; exact h)
      (by norm_num)
  · have hover' : s.gameOver = false := by
      cases hval : s.gameOver
      · rfl
      · exact absurd hval hover
    by_cases hc : (pointerPhase cfg s now ptr).paused = false ∧
        move_interval ≤ now - (pointerPhase cfg s now ptr).lastMove
    · unfold update
      rw [updateFull_run cfg s now ptr picks hover' hc.1 hc.2]
    · exact absurd (by
        unfold updateStepCount at h
        rw [updateFull_skip cfg s now ptr picks hover' hc] at h
        exact h) (by norm_num)


/-! ### C4: bounded catch-up -/

/-- C4: one `update` call executes at most 3 movement steps regardless of
the elapsed time; and when the elapsed time is exactly `10 × tick_interval`
(game live, not paused after the pointer phase), exactly 3 steps are
applied — or fewer, in which case the run was cut short by a collision. -/
theorem C4_bounded_catch_up (cfg : Config) (s : SnakeState) (now : ℚ)
    (ptr : Option Cell) (picks : ℕ → ℕ) :
    updateStepCount cfg s now ptr picks ≤ 3 ∧
    (s.gameOver = false →
     (pointerPhase cfg s now ptr).paused = false →
     now - s.lastMove = 10 * move_interval →
     (updateStepCount cfg s now ptr picks = 3 ∨
      ((update cfg s now ptr picks).gameOver = true ∧
       updateStepCount cfg s now ptr picks < 3))) := by
  constructor
  · by_cases hover : s.gameOver = true
    · unfold updateStepCount updateFull
      rw [if_pos hover]
      exact Nat.zero_le 3
    · have hover' : s.gameOver = false := by
        cases hval : s.gameOver
        · rfl
        · exact absurd hval hover
      by_cases hc : (pointerPhase cfg s now ptr).paused = false ∧
          move_interval ≤ now - (pointerPhase cfg s now ptr).lastMove
      · unfold updateStepCount
        rw [updateFull_run cfg s now ptr picks hover' hc.1 hc.2]
        exact le_trans (runSteps_count_le cfg now picks _ 0 _)
          (Nat.min_le_right _ 3)
      · unfold updateStepCount
        rw [updateFull_skip cfg s now ptr picks hover' hc]
        exact Nat.zero_le 3
  · intro hover hp helapsed
    have helapsed' : now - (pointerPhase cfg s now ptr).lastMove
        = 10 * move_interval := by rw [pointerPhase_lastMove]; exact helapsed
    have hm : move_interval ≤ now - (pointerPhase cfg s now ptr).lastMove := by
      rw [helapsed', move_interval]; norm_num
    have hq : (now - (pointerPhase cfg s now ptr).lastMove) / move_interval
        = 10 := by rw [helapsed', move_interval]; norm_num
    have hsteps : min (⌊(now - (pointerPhase cfg s now ptr).lastMove) /
        move_interval⌋.toNat) 3 = 3 := by
      rw [hq]
      norm_num
    unfold update updateStepCount
    rw [updateFull_run cfg s now ptr picks hover hp hm, hsteps]
    rcases Nat.lt_or_ge
        ((runSteps cfg now picks 3 0 (pointerPhase cfg s now ptr)).2) 3 with hlt | hge
    · exact Or.inr ⟨runSteps_count_lt cfg now picks 3 0 _ hlt, hlt⟩
    · exact Or.inl (Nat.le_antisymm (runSteps_count_le cfg now picks 3 0 _) hge)

/-- Witness for C4 at a concrete live state with elapsed `10 × interval`. -/
theorem C4_witness :
    updateStepCount demoConfig demoState (6 / 5) (some (187, 187))
        (fun _ => 0) ≤ 3 ∧
    (updateStepCount demoConfig demoState (6 / 5) (some (187, 187))
        (fun _ => 0) = 3 ∨
     ((update demoConfig demoState (6 / 5) (some (187, 187))
        (fun _ => 0)).gameOver = true ∧
      updateStepCount demoConfig demoState (6 / 5) (some (187, 187))
        (fun _ => 0) < 3)) :=
  ⟨(C4_bounded_catch_up demoConfig demoState (6 / 5) (some (187, 187))
      (fun _ => 0)).1,
   (C4_bounded_catch_up demoConfig demoState (6 / 5) (some (187, 187))
      (fun _ => 0)).2 rfl rfl
     (by show (6 / 5 : ℚ) - demoState.lastMove = 10 * move_interval
         rw [move_interval, show demoState.lastMove = 0 from rfl]
         norm_num)⟩

/-! ### C10: catch-up after a pause -/

/-- C10: while paused with an absent pointer, `update` does not advance the
last-tick timestamp; consequently the first update after the pointer is
reacquired following a pause of at least `3 × tick_interval` computes the
full catch-up budget of 3 steps, and executes all 3 unless a collision cuts
the run short. -/
theorem C10_pause_catch_up (cfg : Config) (s : SnakeState) (now : ℚ)
    (ptr : Option Cell) (picks : ℕ → ℕ) (h : s.gameOver = false) :
    (s.paused = true → ptr = none →
      (update cfg s now ptr picks).lastMove = s.lastMove) ∧
    (∀ p, ptr = some p → 3 * move_interval ≤ now - s.lastMove →
      (updateStepBudget cfg s now ptr picks = 3 ∧
       ((update cfg s now ptr picks).gameOver = false →
        updateStepCount cfg s now ptr picks = 3))) := by
  constructor
  · rintro hpaused rfl
    have hp1 : (pointerPhase cfg s now none).paused = true := by
      simp only [pointerPhase]
      split
      · rfl
      · exact hpaused
    unfold update
    rw [updateFull_skip cfg s now none picks h
      (by rw [hp1]; simp)]
    exact pointerPhase_lastMove cfg s now none
  · rintro p rfl hm3
    have hmi : (0 : ℚ) < move_interval := by rw [move_interval]; norm_num
    have hm3' : 3 * move_interval ≤ now - (pointerPhase cfg s now (some p)).lastMove := by
      rw [pointerPhase_lastMove]; exact hm3
    have hm : move_interval ≤ now - (pointerPhase cfg s now (some p)).lastMove := by
      have : move_interval ≤ 3 * move_interval := by rw [move_interval]; norm_num
      exact le_trans this hm3'
    have hfloor : (3 : ℤ) ≤ ⌊(now - (pointerPhase cfg s now (some p)).lastMove)
        / move_interval⌋ := by
      rw [Int.le_floor]
      push_cast
      rw [le_div_iff₀ hmi]
      linarith
    have hsteps : min (⌊(now - (pointerPhase cfg s now (some p)).lastMove) /
        move_interval⌋.toNat) 3 = 3 := by omega
    have hp : (pointerPhase cfg s now (some p)).paused = false := rfl
    constructor
    · unfold updateStepBudget
      rw [updateFull_run cfg s now (some p) picks h hp hm, hsteps]
    · intro hlive
      unfold update at hlive
      unfold updateStepCount
      rw [updateFull_run cfg s now (some p) picks h hp hm, hsteps] at hlive ⊢
      rcases Nat.lt_or_ge
          ((runSteps cfg now picks 3 0 (pointerPhase cfg s now (some p))).2) 3
        with hlt | hge
      · exact absurd hlive
          (by rw [runSteps_count_lt cfg now picks 3 0 _ hlt]; simp)
      · exact Nat.le_antisymm (runSteps_count_le cfg now picks 3 0 _) hge

/-- Witness for C10: the demo state, pointer reacquired after a long gap,
computes the full budget of 3 steps. -/
theorem C10_witness :
    updateStepBudget demoConfig demoState 2 (some (187, 187)) (fun _ => 0)
      = 3 :=
  ((C10_pause_catch_up demoConfig demoState 2 (some (187, 187)) (fun _ => 0)
      rfl).2 (187, 187) rfl
    (by show 3 * move_interval ≤ (2 : ℚ) - demoState.lastMove
        rw [move_interval, show demoState.lastMove = 0 from rfl]
        norm_num)).1

end Snake

namespace Snake

/-! ### C2: counterexample -/

/-- On the demo state at `now = 0.18` (elapsed `1.5 × tick_interval`,
pointer absent but within the hysteresis window), `update` runs exactly
one movement step. -/
theorem demo_run_18 :
    updateFull demoConfig demoState (18 / 100) none (fun _ => 0)
      = ({ (runSteps demoConfig (18 / 100) (fun _ => 0) 1 0
              (pointerPhase demoConfig demoState (18 / 100) none)).1
            with lastMove := 18 / 100 },
         (runSteps demoConfig (18 / 100) (fun _ => 0) 1 0
            (pointerPhase demoConfig demoState (18 / 100) none)).2, 1) := by
  have hp : (pointerPhase demoConfig demoState (18 / 100) none).paused
      = false := by
    simp only [pointerPhase]
    rw [if_neg (by rw [show demoState.lastHandSeen = 0 from rfl]; norm_num)]
    rfl
  have hm : move_interval ≤ (18 / 100 : ℚ) -
      (pointerPhase demoConfig demoState (18 / 100) none).lastMove := by
    rw [pointerPhase_lastMove, show demoState.lastMove = 0 from rfl,
      move_interval]
    norm_num
  have hsteps : min (⌊((18 / 100 : ℚ) -
      (pointerPhase demoConfig demoState (18 / 100) none).lastMove) /
      move_interval⌋.toNat) 3 = 1 := by
    rw [pointerPhase_lastMove, show demoState.lastMove = 0 from rfl,
      move_interval,
      show ((18 : ℚ) / 100 - 0) / (12 / 100) = 3 / 2 by norm_num,
      show ⌊(3 / 2 : ℚ)⌋ = 1 from Int.floor_eq_iff.mpr (by norm_num)]
    rfl
  rw [updateFull_run demoConfig demoState (18 / 100) none (fun _ => 0) rfl
    hp hm, hsteps]

/-- The single step of `demo_run_18` is counted. -/
theorem demo_one_step :
    updateStepCount demoConfig demoState (18 / 100) none (fun _ => 0) = 1 := by
  unfold updateStepCount
  rw [demo_run_18]
  have hlive : (pointerPhase demoConfig demoState (18 / 100) none).gameOver
      = false := by rw [pointerPhase_gameOver]; rfl
  simp [runSteps, hlive]

/-- C2 fails on the code: with `lastMove = 0` and `now = 0.18`
(`elapsed = 1.5 × tick_interval`), one step executes, yet the new
`lastMove` is `0.18 = now`, not `lastMove + 1 × tick_interval = 0.12` —
the code assigns `self._last_move_t = now`, discarding the phase. -/
theorem C2_counterexample :
    updateStepCount demoConfig demoState (18 / 100) none (fun _ => 0) = 1 ∧
    (update demoConfig demoState (18 / 100) none (fun _ => 0)).lastMove
      = 18 / 100 ∧
    demoState.lastMove + 1 * move_interval ≠ 18 / 100 := by
  refine ⟨demo_one_step, ?_, ?_⟩
  · unfold update
    rw [demo_run_18]
  · rw [show demoState.lastMove = 0 from rfl, move_interval]
    norm_num

/-- Witness for C2 (amended): on the demo state at `now = 0.18`, where one
step executes, the last-tick timestamp ends up equal to `now`. -/
theorem C2_amended_witness :
    (update demoConfig demoState (18 / 100) none (fun _ => 0)).lastMove
      = 18 / 100 :=
  C2_amended demoConfig demoState (18 / 100) none (fun _ => 0)
    (by rw [demo_one_step])

/-! ### C1: growth timing after eating -/

/-- The new head cell a step would move to: `head + pending_direction`. -/
def newHead (s : SnakeState) : Cell :=
  ((s.snake.headD (0, 0)).1 + s.pendingDir.1,
   (s.snake.headD (0, 0)).2 + s.pendingDir.2)

/-- The collision test of a step (source line 333): new head out of bounds
or already a body cell. -/
def stepCollides (cfg : Config) (s : SnakeState) : Prop :=
  (newHead s).1 < 0 ∨ (newHead s).2 < 0 ∨ grid_w cfg ≤ (newHead s).1 ∨
    grid_h cfg ≤ (newHead s).2 ∨ newHead s ∈ s.snake

instance (cfg : Config) (s : SnakeState) : Decidable (stepCollides cfg s) := by
  unfold stepCollides; infer_instance

/-- A legal eating step: head inserted, score up, two growth credits
awarded of which one is consumed at once, food replaced — so the body is
longer by one already on the eating tick. -/
theorem stepOnce_eat (cfg : Config) (now : ℚ) (s : SnakeState) (pick : ℕ)
    (hcol : ¬ stepCollides cfg s)
    (hfood : newHead s ∈ foodCellsList s.foodTl) :
    (stepOnce cfg now s pick).snake = newHead s :: s.snake ∧
    (stepOnce cfg now s pick).score = s.score + 1 ∧
    (stepOnce cfg now s pick).grow = s.grow + 1 ∧
    (stepOnce cfg now s pick).gameOver = s.gameOver ∧
    (stepOnce cfg now s pick).foodTl
      = randomFoodLocation cfg (newHead s :: s.snake) pick := by
  unfold stepCollides at hcol
  unfold newHead at hcol hfood ⊢
  simp only [stepOnce]
  rw [if_neg hcol]
  simp only [hfood, ite_true]
  rw [if_pos (by omega : 0 < s.grow + 2)]
  exact ⟨rfl, rfl, by show s.grow + 2 - 1 = s.grow + 1; omega, rfl, rfl⟩

/-- A legal non-eating step with growth credits pending: head inserted,
tail kept, one credit consumed. -/
theorem stepOnce_noeat_grow (cfg : Config) (now : ℚ) (s : SnakeState)
    (pick : ℕ) (hcol : ¬ stepCollides cfg s)
    (hfood : newHead s ∉ foodCellsList s.foodTl) (hg : 0 < s.grow) :
    (stepOnce cfg now s pick).snake = newHead s :: s.snake ∧
    (stepOnce cfg now s pick).score = s.score ∧
    (stepOnce cfg now s pick).grow = s.grow - 1 ∧
    (stepOnce cfg now s pick).gameOver = s.gameOver ∧
    (stepOnce cfg now s pick).foodTl = s.foodTl := by
  unfold stepCollides at hcol
  unfold newHead at hcol hfood ⊢
  simp only [stepOnce]
  rw [if_neg hcol]
  simp only [hfood, ite_false]
  rw [if_pos hg]
  exact ⟨rfl, rfl, rfl, rfl, rfl⟩

/-- A legal non-eating step with no growth credits: head inserted and tail
removed, body length unchanged. -/
theorem stepOnce_noeat_nogrow (cfg : Config) (now : ℚ) (s : SnakeState)
    (pick : ℕ) (hcol : ¬ stepCollides cfg s)
    (hfood : newHead s ∉ foodCellsList s.foodTl) (hg : s.grow = 0) :
    (stepOnce cfg now s pick).snake = (newHead s :: s.snake).dropLast ∧
    (stepOnce cfg now s pick).score = s.score ∧
    (stepOnce cfg now s pick).grow = 0 ∧
    (stepOnce cfg now s pick).gameOver = s.gameOver ∧
    (stepOnce cfg now s pick).foodTl = s.foodTl := by
  unfold stepCollides at hcol
  unfold newHead at hcol hfood ⊢
  simp only [stepOnce]
  rw [if_neg hcol]
  simp only [hfood, ite_false]
  rw [if_neg (by omega : ¬ 0 < s.grow)]
  exact ⟨rfl, rfl, hg, rfl, rfl⟩

/-- C1 fails on the code: on the demo state (3-cell snake, no growth
credits, food block directly ahead), the eating step itself already
lengthens the body from 3 to 4 — the length is *not* unchanged on the tick
the food is eaten.  The score does increase by exactly 1. -/
theorem C1_counterexample :
    demoState.grow = 0 ∧
    ¬ stepCollides demoConfig demoState ∧
    newHead demoState ∈ foodCellsList demoState.foodTl ∧
    demoState.snake.length = 3 ∧
    (stepOnce demoConfig 0 demoState 0).snake.length = 4 ∧
    (stepOnce demoConfig 0 demoState 0).score = demoState.score + 1 := by
  decide

/-- C1 (amended): with `grow_credits = 0`, a legal step whose new head
lands in the food block increases `score` by exactly 1 and lengthens the
body by exactly 1 *on that same tick*; the body lengthens by exactly 1
more on the following tick and is unchanged on the tick after that
(absent further food), for a total growth of 2 cells per food item. -/
theorem C1_amended (cfg : Config) (now1 now2 now3 : ℚ) (s : SnakeState)
    (p1 p2 p3 : ℕ) (hg : s.grow = 0)
    (hc1 : ¬ stepCollides cfg s)
    (hf1 : newHead s ∈ foodCellsList s.foodTl)
    (hc2 : ¬ stepCollides cfg (stepOnce cfg now1 s p1))
    (hf2 : newHead (stepOnce cfg now1 s p1)
      ∉ foodCellsList (stepOnce cfg now1 s p1).foodTl)
    (hc3 : ¬ stepCollides cfg (stepOnce cfg now2 (stepOnce cfg now1 s p1) p2))
    (hf3 : newHead (stepOnce cfg now2 (stepOnce cfg now1 s p1) p2)
      ∉ foodCellsList (stepOnce cfg now2 (stepOnce cfg now1 s p1) p2).foodTl) :
    (stepOnce cfg now1 s p1).snake.length = s.snake.length + 1 ∧
    (stepOnce cfg now1 s p1).score = s.score + 1 ∧
    (stepOnce cfg now2 (stepOnce cfg now1 s p1) p2).snake.length
      = s.snake.length + 2 ∧
    (stepOnce cfg now2 (stepOnce cfg now1 s p1) p2).score = s.score + 1 ∧
    (stepOnce cfg now3 (stepOnce cfg now2 (stepOnce cfg now1 s p1) p2)
        p3).snake.length = s.snake.length + 2 ∧
    (stepOnce cfg now3 (stepOnce cfg now2 (stepOnce cfg now1 s p1) p2)
        p3).score = s.score + 1 := by
  obtain ⟨h1s, h1sc, h1g, -, -⟩ := stepOnce_eat cfg now1 s p1 hc1 hf1
  have hg1 : (stepOnce cfg now1 s p1).grow = 1 := by rw [h1g, hg]
  obtain ⟨h2s, h2sc, h2g, -, -⟩ :=
    stepOnce_noeat_grow cfg now2 (stepOnce cfg now1 s p1) p2 hc2 hf2
      (by rw [hg1]; norm_num)
  have hg2 : (stepOnce cfg now2 (stepOnce cfg now1 s p1) p2).grow = 0 := by
    rw [h2g, hg1]
  obtain ⟨h3s, h3sc, -, -, -⟩ :=
    stepOnce_noeat_nogrow cfg now3
      (stepOnce cfg now2 (stepOnce cfg now1 s p1) p2) p3 hc3 hf3 hg2
  have hl1 : (stepOnce cfg now1 s p1).snake.length = s.snake.length + 1 := by
    rw [h1s, List.length_cons]
  have hl2 : (stepOnce cfg now2 (stepOnce cfg now1 s p1) p2).snake.length
      = s.snake.length + 2 := by
    rw [h2s, List.length_cons, hl1]
  refine ⟨hl1, h1sc, hl2, by rw [h2sc, h1sc], ?_, by rw [h3sc, h2sc, h1sc]⟩
  rw [h3s, List.length_dropLast, List.length_cons, hl2]
  omega

/-- Witness for C1 (amended) on the demo state: lengths go 3 → 4 → 5 → 5
and the score goes 0 → 1 across the eating tick and the two following
ticks. -/
theorem C1_amended_witness :
    (stepOnce demoConfig 0 demoState 0).snake.length
      = demoState.snake.length + 1 ∧
    (stepOnce demoConfig 0 demoState 0).score = demoState.score + 1 ∧
    (stepOnce demoConfig 0 (stepOnce demoConfig 0 demoState 0) 0).snake.length
      = demoState.snake.length + 2 ∧
    (stepOnce demoConfig 0 (stepOnce demoConfig 0 demoState 0) 0).score
      = demoState.score + 1 ∧
    (stepOnce demoConfig 0
        (stepOnce demoConfig 0 (stepOnce demoConfig 0 demoState 0) 0)
        0).snake.length = demoState.snake.length + 2 ∧
    (stepOnce demoConfig 0
        (stepOnce demoConfig 0 (stepOnce demoConfig 0 demoState 0) 0)
        0).score = demoState.score + 1 :=
  C1_amended demoConfig 0 0 0 demoState 0 0 0 rfl (by decide) (by decide)
    (by decide) (by decide) (by decide) (by decide)

end Snake
